import Mathlib

/-!
Shallow embedding of the cint C interpreter (misterunix/cint): the evaluator of
`interpreter.go` (values, environments, Run and the single-step protocol) and
the expression level of `parser.go` (the Pratt parser).

Go pointers (`*Value`, `*Environment`) are modelled as indices into explicit
heaps carried in the interpreter state, so pointer aliasing and in-place
mutation behave exactly as in Go.  A Go `error` return is `.err`, a Go runtime
panic is `.panic`, and `.timeout` marks fuel exhaustion of the embedding
(not a behaviour of the Go code: theorems about general inputs exclude it).
Go `float64` fields are modelled as rationals; no claim in this development
depends on floating-point results, only on the `Type == "float"` tag tests
and on control flow, which are modelled faithfully.
-/

namespace Cint

/-- Reduce an integer to Go int64 two's-complement range: Go int64 arithmetic
wraps on overflow. -/
def wrap64 (n : Int) : Int :=
  (n + 9223372036854775808) % 18446744073709551616 - 9223372036854775808

/-- Go's `uint(x)` conversion of an int64 value, as used for shift amounts
(`left.Int << uint(right.Int)`): reinterpret the two's-complement bits as an
unsigned number. -/
def toUint64 (n : Int) : Nat := (n % 18446744073709551616).toNat

/-- Go `<<` on int64 with an unsigned shift count: a count of 64 or more
yields 0, otherwise the result wraps. -/
def goShiftLeft (a b : Int) : Int :=
  if 64 ≤ toUint64 b then 0 else wrap64 (a * (2 ^ toUint64 b))

/-- Go `>>` on int64: arithmetic (sign-filling) shift, which on two's
complement integers is floor division by a power of two; a count of 64 or
more leaves only the sign. -/
def goShiftRight (a b : Int) : Int :=
  if 64 ≤ toUint64 b then (if a < 0 then -1 else 0) else Int.fdiv a (2 ^ toUint64 b)

/-- Go struct `Value` (interpreter.go).  Field names are lowercased forms of
the Go `Type`, `Int`, `Float`, `Str` fields (the Go names clash with Lean core
types); the `Ptr` field is never read or written by the interpreter and is
omitted. -/
structure Value where
  vtype : String
  vint : Int
  vflt : Rat
  vstr : String
deriving DecidableEq, Repr

/-- `&Value{Type: "int", Int: n}`: the remaining Go fields are zero values. -/
def intValue (n : Int) : Value := ⟨"int", n, 0, ""⟩

/-- `&Value{Type: "float", Float: q}`. -/
def floatValue (q : Rat) : Value := ⟨"float", 0, q, ""⟩

/-- Go map semantics for the string-keyed maps of the interpreter
(`Environment.store`, `Interpreter.functions`): lookup. -/
def assocGet {α : Type} : List (String × α) → String → Option α
  | [], _ => none
  | (k, v) :: rest, name => if k = name then some v else assocGet rest name

/-- Go map semantics: insert or overwrite. -/
def assocSet {α : Type} : List (String × α) → String → α → List (String × α)
  | [], name, v => [(name, v)]
  | (k, w) :: rest, name, v =>
      if k = name then (name, v) :: rest else (k, w) :: assocSet rest name v

/-- Go struct `Parameter` (ast.go). -/
structure Parameter where
  typ : String
  name : String
deriving DecidableEq, Repr

mutual

/-- The `Expression` AST variants of ast.go.  `nilExpression` stands for a Go
`nil` Expression interface value, which the parser can produce and embed in a
tree; the evaluator's type switch matches no case for it. -/
inductive Expression where
  | Identifier (value : String)
  | IntegerLiteral (value : Int)
  | FloatLiteral (value : Rat)
  | StringLiteral (value : String)
  | CharLiteral (value : Nat)
  | PrefixExpression (operator : String) (right : Expression)
  | PostfixExpression (left : Expression) (operator : String)
  | InfixExpression (left : Expression) (operator : String) (right : Expression)
  | AssignmentExpression (left : Expression) (operator : String) (right : Expression)
  | CallExpression (function : Expression) (arguments : List Expression)
  | ConditionalExpression (condition : Expression) (consequence : Expression)
      (alternative : Expression)
  | ArrayExpression (left : Expression) (index : Expression)
  | nilExpression

/-- The `Statement` AST variants of ast.go.  Block bodies are statement lists;
a `*BlockStatement` that may be Go-nil (a function prototype's absent body) is
an `Option`. -/
inductive Statement where
  | FunctionDeclStmt (fd : FunctionDecl)
  | VarDecl (typ : String) (name : String) (value : Option Expression)
  | BlockStatement (statements : List Statement)
  | ReturnStatement (returnValue : Option Expression)
  | ExpressionStatement (expression : Expression)
  | IfStatement (condition : Expression) (consequence : List Statement)
      (alternative : Option (List Statement))
  | WhileStatement (condition : Expression) (body : List Statement)
  | ForStatement (init : Option Statement) (condition : Option Expression)
      (post : Option Expression) (body : List Statement)
  | BreakStatement
  | ContinueStatement

/-- Go struct `FunctionDecl` (ast.go): return type, name, parameters, optional
body (`nil` body = prototype). -/
inductive FunctionDecl where
  | mk (returnType : String) (name : String) (parameters : List Parameter)
      (body : Option (List Statement))

end

def FunctionDecl.returnType : FunctionDecl → String
  | .mk r _ _ _ => r

def FunctionDecl.name : FunctionDecl → String
  | .mk _ n _ _ => n

def FunctionDecl.parameters : FunctionDecl → List Parameter
  | .mk _ _ p _ => p

def FunctionDecl.body : FunctionDecl → Option (List Statement)
  | .mk _ _ _ b => b

/-- Go struct `Environment` (interpreter.go): a store mapping names to
`*Value` (here: indices into the value heap) and an optional outer
environment (here: an index into the environment heap). -/
structure EnvData where
  store : List (String × Nat)
  outer : Option Nat
deriving DecidableEq, Repr

/-- The mutable state of a Go `Interpreter` (interpreter.go), together with
the two heaps that model Go pointers.  `venv` holds the targets of `*Value`
pointers, `eenv` the targets of `*Environment` pointers; `globals` is the
index of the interpreter's global environment.  The `program` and `builtins`
fields of the Go struct are not carried: the program is only read by
`NewInterpreter`, and the builtin table always holds the fixed
`registerBuiltins` entries, embedded below as `builtinNames`/`evalBuiltin`. -/
structure IState where
  venv : List Value
  eenv : List EnvData
  globals : Nat
  functions : List (String × FunctionDecl)
  stepMode : Bool
  stepIndex : Nat
  stepStack : List Statement
  currentEnv : Option Nat
  shouldReturn : Bool
  returnValue : Option Nat
  shouldBreak : Bool
  shouldContinue : Bool

/-- Outcome of a Go computation: a normal result, a returned `error`, a Go
runtime panic, or exhaustion of the embedding's fuel. -/
inductive EvalOut (α : Type) where
  | ok (a : α)
  | err (msg : String)
  | panic (msg : String)
  | timeout
deriving DecidableEq, Repr

/-- State-threading computations over the interpreter state. -/
def M (α : Type) : Type := IState → EvalOut α × IState

instance : Monad M where
  pure a := fun s => (.ok a, s)
  bind m k := fun s =>
    match m s with
    | (.ok a, s1) => k a s1
    | (.err e, s1) => (.err e, s1)
    | (.panic e, s1) => (.panic e, s1)
    | (.timeout, s1) => (.timeout, s1)

def getState : M IState := fun s => (.ok s, s)

def modifyState (g : IState → IState) : M Unit := fun s => (.ok (), g s)

/-- Return a Go `error` (a `fmt.Errorf` result). -/
def errM {α : Type} (msg : String) : M α := fun s => (.err msg, s)

/-- A Go runtime panic (nil-pointer dereference, integer divide by zero). -/
def panicM {α : Type} (msg : String) : M α := fun s => (.panic msg, s)

/-- Fuel exhaustion of the embedding. -/
def timeoutM {α : Type} : M α := fun s => (.timeout, s)

/-- Catch a Go `error` return the way `result, err := f(...)` receives it,
while letting panics (and fuel exhaustion) propagate. -/
def catchErr {α : Type} (m : M α) : M (Except String α) := fun s =>
  match m s with
  | (.ok a, s1) => (.ok (.ok a), s1)
  | (.err e, s1) => (.ok (.error e), s1)
  | (.panic e, s1) => (.panic e, s1)
  | (.timeout, s1) => (.timeout, s1)

/-- Allocate a fresh `Value` cell (`&Value{...}` in Go) and return its
address. -/
def allocValue (v : Value) : M Nat := fun s =>
  (.ok s.venv.length, { s with venv := s.venv ++ [v] })

/-- Dereference a `*Value`. -/
def readValue (r : Nat) : M Value := fun s =>
  match s.venv.get? r with
  | some v => (.ok v, s)
  | none => (.panic "invalid memory address or nil pointer dereference", s)

/-- Assign through a `*Value` (as in `val.Int++`). -/
def writeValue (r : Nat) (v : Value) : M Unit := fun s =>
  match s.venv.get? r with
  | some _ => (.ok (), { s with venv := s.venv.set r v })
  | none => (.panic "invalid memory address or nil pointer dereference", s)

/-- Allocate a fresh environment record and return its address. -/
def allocEnv (d : EnvData) : M Nat := fun s =>
  (.ok s.eenv.length, { s with eenv := s.eenv ++ [d] })

/-- `NewEnvironment` (interpreter.go): empty store, no outer environment. -/
def NewEnvironment : M Nat := allocEnv ⟨[], none⟩

/-- `NewEnclosedEnvironment` (interpreter.go). -/
def NewEnclosedEnvironment (outer : Nat) : M Nat := allocEnv ⟨[], some outer⟩

/-- The recursion of `Environment.Get`: look in the store, then walk to the
outer environment.  The fuel is the heap size; environments always point to
earlier-allocated outers, so the chain is acyclic and never longer than the
heap. -/
def envGetAux (heap : List EnvData) : Nat → Nat → String → Option Nat
  | 0, _, _ => none
  | fuel + 1, e, name =>
    match heap.get? e with
    | none => none
    | some d =>
      match assocGet d.store name with
      | some v => some v
      | none =>
        match d.outer with
        | some o => envGetAux heap fuel o name
        | none => none

/-- `Environment.Get` (interpreter.go): recursive lookup through the chain of
outer environments, returning the stored `*Value` address. -/
def envGet (e : Nat) (name : String) : M (Option Nat) := fun s =>
  (.ok (envGetAux s.eenv s.eenv.length e name), s)

/-- `Environment.Set` (interpreter.go): `e.store[name] = val`.  The write
always lands in environment `e` itself; `Set` never walks to an outer
environment. -/
def envSet (e : Nat) (name : String) (valRef : Nat) : M Unit := fun s =>
  match s.eenv.get? e with
  | some d =>
      (.ok (), { s with eenv := s.eenv.set e { d with store := assocSet d.store name valRef } })
  | none => (.panic "invalid memory address or nil pointer dereference", s)

/-- `isTruthy` (interpreter.go). -/
def isTruthy (v : Value) : Bool :=
  if v.vtype = "float" then decide (v.vflt ≠ 0) else decide (v.vint ≠ 0)

/-- `boolToInt` (interpreter.go). -/
def boolToInt (b : Bool) : Int := if b then 1 else 0

/-- The integer-operator switch of `evalInfixExpression` (interpreter.go).
Reached when neither operand is a float, or by fall-through when an operand
is a float but the operator has no float case (the Go inner `switch` falls out
of the `if` block into this one).  The `%` case mirrors the source exactly:
unlike `/`, it has no zero check, so the Go `%` operator panics when the
right operand's `Int` field is 0. -/
def intInfixOp (operator : String) (lv rv : Value) : M Nat :=
  if operator = "+" then allocValue (intValue (wrap64 (lv.vint + rv.vint)))
  else if operator = "-" then allocValue (intValue (wrap64 (lv.vint - rv.vint)))
  else if operator = "*" then allocValue (intValue (wrap64 (lv.vint * rv.vint)))
  else if operator = "/" then
    if rv.vint = 0 then errM "division by zero"
    else allocValue (intValue (wrap64 (Int.tdiv lv.vint rv.vint)))
  else if operator = "%" then
    if rv.vint = 0 then panicM "runtime error: integer divide by zero"
    else allocValue (intValue (Int.tmod lv.vint rv.vint))
  else if operator = "<" then allocValue (intValue (boolToInt (decide (lv.vint < rv.vint))))
  else if operator = ">" then allocValue (intValue (boolToInt (decide (rv.vint < lv.vint))))
  else if operator = "<=" then allocValue (intValue (boolToInt (decide (lv.vint ≤ rv.vint))))
  else if operator = ">=" then allocValue (intValue (boolToInt (decide (rv.vint ≤ lv.vint))))
  else if operator = "==" then allocValue (intValue (boolToInt (decide (lv.vint = rv.vint))))
  else if operator = "!=" then allocValue (intValue (boolToInt (decide (lv.vint ≠ rv.vint))))
  else if operator = "&&" then allocValue (intValue (boolToInt (isTruthy lv && isTruthy rv)))
  else if operator = "||" then allocValue (intValue (boolToInt (isTruthy lv || isTruthy rv)))
  else if operator = "&" then allocValue (intValue (Int.land lv.vint rv.vint))
  else if operator = "|" then allocValue (intValue (Int.lor lv.vint rv.vint))
  else if operator = "^" then allocValue (intValue (Int.xor lv.vint rv.vint))
  else if operator = "<<" then allocValue (intValue (goShiftLeft lv.vint rv.vint))
  else if operator = ">>" then allocValue (intValue (goShiftRight lv.vint rv.vint))
  else errM ("unknown infix operator: " ++ operator)

/-- The float branch of `evalInfixExpression` (interpreter.go): both operands
are promoted to float; an operator with no float case falls through to the
integer switch.  Rational arithmetic stands in for IEEE float64; no claim
below evaluates a float operation. -/
def floatInfixOp (operator : String) (lv rv : Value) : M Nat :=
  let leftF : Rat := if lv.vtype = "float" then lv.vflt else (lv.vint : Rat)
  let rightF : Rat := if rv.vtype = "float" then rv.vflt else (rv.vint : Rat)
  if operator = "+" then allocValue (floatValue (leftF + rightF))
  else if operator = "-" then allocValue (floatValue (leftF - rightF))
  else if operator = "*" then allocValue (floatValue (leftF * rightF))
  else if operator = "/" then allocValue (floatValue (leftF / rightF))
  else if operator = "<" then allocValue (intValue (boolToInt (decide (leftF < rightF))))
  else if operator = ">" then allocValue (intValue (boolToInt (decide (rightF < leftF))))
  else if operator = "<=" then allocValue (intValue (boolToInt (decide (leftF ≤ rightF))))
  else if operator = ">=" then allocValue (intValue (boolToInt (decide (rightF ≤ leftF))))
  else if operator = "==" then allocValue (intValue (boolToInt (decide (leftF = rightF))))
  else if operator = "!=" then allocValue (intValue (boolToInt (decide (leftF ≠ rightF))))
  else intInfixOp operator lv rv

/-- The compound-assignment switch of `evalAssignmentExpression`
(interpreter.go): builds `&Value{Type: left.Type, Int: ...}`.  As in the
source, `/=` and `%=` have no zero check, so a zero right operand makes the
Go `/`/`%` operator panic. -/
def compoundResult (operator : String) (lv rv : Value) : EvalOut Value :=
  if operator = "+=" then .ok ⟨lv.vtype, wrap64 (lv.vint + rv.vint), 0, ""⟩
  else if operator = "-=" then .ok ⟨lv.vtype, wrap64 (lv.vint - rv.vint), 0, ""⟩
  else if operator = "*=" then .ok ⟨lv.vtype, wrap64 (lv.vint * rv.vint), 0, ""⟩
  else if operator = "/=" then
    if rv.vint = 0 then .panic "runtime error: integer divide by zero"
    else .ok ⟨lv.vtype, wrap64 (Int.tdiv lv.vint rv.vint), 0, ""⟩
  else if operator = "%=" then
    if rv.vint = 0 then .panic "runtime error: integer divide by zero"
    else .ok ⟨lv.vtype, Int.tmod lv.vint rv.vint, 0, ""⟩
  else if operator = "&=" then .ok ⟨lv.vtype, Int.land lv.vint rv.vint, 0, ""⟩
  else if operator = "|=" then .ok ⟨lv.vtype, Int.lor lv.vint rv.vint, 0, ""⟩
  else if operator = "^=" then .ok ⟨lv.vtype, Int.xor lv.vint rv.vint, 0, ""⟩
  else if operator = "<<=" then .ok ⟨lv.vtype, goShiftLeft lv.vint rv.vint, 0, ""⟩
  else if operator = ">>=" then .ok ⟨lv.vtype, goShiftRight lv.vint rv.vint, 0, ""⟩
  else .err ("unknown assignment operator: " ++ operator)

/-- The keys of the `builtins` map registered by `registerBuiltins`
(interpreter.go). -/
def builtinNames : List String :=
  ["printf", "sleep", "putchar", "sqrt", "pow", "sin", "cos", "tan",
   "abs", "floor", "ceil", "log", "log10", "exp"]

/-- The one-numeric-argument math builtins of `registerBuiltins`, which share
one control-flow shape: no argument is an arity error, otherwise the first
argument is evaluated and a float result is produced. -/
def unaryMathNames : List String :=
  ["sqrt", "sin", "cos", "tan", "floor", "ceil", "log", "log10", "exp"]

/-- One fuel level of the mutually recursive evaluator procedures of
interpreter.go, bundled so that the fuel recursion is a plain `Nat.rec`
iteration (`evalFns`): this keeps the definitions kernel-reducible on
concrete inputs.  The public wrappers below restore the source names;
each record field of `evalStep` is the direct transcription of one Go
method, with `prev.*` standing for the recursive calls made at the
next-smaller fuel. -/
structure EvalFns where
  evalStatementF : Statement → Nat → M Unit
  evalVarDeclF : String → String → Option Expression → Nat → M Unit
  evalBlockStatementF : List Statement → Nat → M Unit
  evalIfStatementF : Expression → List Statement → Option (List Statement) → Nat → M Unit
  evalWhileStatementF : Expression → List Statement → Nat → M Unit
  evalForStatementF : Option Statement → Option Expression → Option Expression → List Statement → Nat → M Unit
  evalForLoopF : Option Expression → Option Expression → List Statement → Nat → M Unit
  evalFunctionBodyF : Option (List Statement) → Nat → M Nat
  evalExpressionF : Expression → Nat → M Nat
  evalPrefixExpressionF : String → Expression → Nat → M Nat
  evalPostfixExpressionF : Expression → String → Nat → M Nat
  evalInfixExpressionF : Expression → String → Expression → Nat → M Nat
  evalAssignmentExpressionF : Expression → String → Expression → Nat → M Nat
  evalCallExpressionF : Expression → List Expression → Nat → M Nat
  bindParametersF : List Parameter → List Expression → Nat → Nat → M Unit
  evalConditionalExpressionF : Expression → Expression → Expression → Nat → M Nat
  evalBuiltinF : String → List Expression → Nat → M Nat
  evalArgsLoopF : List Expression → Nat → M Unit

/-- All evaluator procedures at fuel 0: the embedding's fuel is spent. -/
def timeoutFns : EvalFns where
  evalStatementF := fun _ _ => timeoutM
  evalVarDeclF := fun _ _ _ _ => timeoutM
  evalBlockStatementF := fun _ _ => timeoutM
  evalIfStatementF := fun _ _ _ _ => timeoutM
  evalWhileStatementF := fun _ _ _ => timeoutM
  evalForStatementF := fun _ _ _ _ _ => timeoutM
  evalForLoopF := fun _ _ _ _ => timeoutM
  evalFunctionBodyF := fun _ _ => timeoutM
  evalExpressionF := fun _ _ => timeoutM
  evalPrefixExpressionF := fun _ _ _ => timeoutM
  evalPostfixExpressionF := fun _ _ _ => timeoutM
  evalInfixExpressionF := fun _ _ _ _ => timeoutM
  evalAssignmentExpressionF := fun _ _ _ _ => timeoutM
  evalCallExpressionF := fun _ _ _ => timeoutM
  bindParametersF := fun _ _ _ _ => timeoutM
  evalConditionalExpressionF := fun _ _ _ _ => timeoutM
  evalBuiltinF := fun _ _ _ => timeoutM
  evalArgsLoopF := fun _ _ => timeoutM

/-- One evaluation level: every Go method of the evaluator, given the
previous fuel level `prev`. -/
def evalStep (prev : EvalFns) : EvalFns where
  /- `Interpreter.evalStatement` (interpreter.go).  A `FunctionDecl` statement
  matches no case of the Go type switch and falls through to `return nil`. -/
  evalStatementF := fun stmt env =>
    match stmt with
    | .VarDecl typ name value => prev.evalVarDeclF typ name value env
    | .ExpressionStatement e => do
        let _ ← prev.evalExpressionF e env
        pure ()
    | .ReturnStatement rv =>
      (match rv with
       | some e => do
           let v ← prev.evalExpressionF e env
           modifyState (fun s => { s with returnValue := some v, shouldReturn := true })
       | none => modifyState (fun s => { s with shouldReturn := true }))
    | .IfStatement c cons alt => prev.evalIfStatementF c cons alt env
    | .WhileStatement c b => prev.evalWhileStatementF c b env
    | .ForStatement i c p b => prev.evalForStatementF i c p b env
    | .BlockStatement stmts => prev.evalBlockStatementF stmts env
    | .BreakStatement => modifyState (fun s => { s with shouldBreak := true })
    | .ContinueStatement => modifyState (fun s => { s with shouldContinue := true })
    | .FunctionDeclStmt _ => pure ()
  /- `Interpreter.evalVarDecl` (interpreter.go): default initialization is
  `&Value{Type: node.Type, Int: 0}`. -/
  evalVarDeclF := fun typ name value env => do
    let val ← (match value with
      | some e => prev.evalExpressionF e env
      | none => allocValue ⟨typ, 0, 0, ""⟩)
    envSet env name val
  /- `Interpreter.evalBlockStatement` (interpreter.go): sequential walk in the
  caller's environment (no child scope is created here), halting early when a
  return/break/continue flag is set. -/
  evalBlockStatementF := fun stmts env =>
    match stmts with
    | [] => pure ()
    | stmt :: rest => do
        prev.evalStatementF stmt env
        let st ← getState
        if st.shouldReturn || st.shouldBreak || st.shouldContinue then pure ()
        else prev.evalBlockStatementF rest env
  /- `Interpreter.evalIfStatement` (interpreter.go). -/
  evalIfStatementF := fun c cons alt env => do
    let r ← prev.evalExpressionF c env
    let v ← readValue r
    if isTruthy v then prev.evalBlockStatementF cons env
    else
      match alt with
      | some a => prev.evalBlockStatementF a env
      | none => pure ()
  /- `Interpreter.evalWhileStatement` (interpreter.go); each recursive call is
  one iteration of the Go `for {}` loop. -/
  evalWhileStatementF := fun c body env => do
    let r ← prev.evalExpressionF c env
    let v ← readValue r
    if !(isTruthy v) then pure ()
    else do
      prev.evalBlockStatementF body env
      let st ← getState
      if st.shouldReturn then pure ()
      else if st.shouldBreak then modifyState (fun s => { s with shouldBreak := false })
      else do
        (if st.shouldContinue then modifyState (fun s => { s with shouldContinue := false })
         else pure ())
        prev.evalWhileStatementF c body env
  /- `Interpreter.evalForStatement` (interpreter.go): ONE child scope is
  created for the whole loop, before the init statement runs; all iterations
  share it. -/
  evalForStatementF := fun ini cond post body env => do
    let loopEnv ← NewEnclosedEnvironment env
    (match ini with
     | some st => prev.evalStatementF st loopEnv
     | none => pure ())
    prev.evalForLoopF cond post body loopEnv
  /- The iteration loop of `evalForStatement`: condition check, body, flag
  handling, post expression (a cleared `continue` still falls through to the
  post expression, as in the source), then the next iteration. -/
  evalForLoopF := fun cond post body loopEnv => do
    let go ← (match cond with
      | some c => do
          let r ← prev.evalExpressionF c loopEnv
          let v ← readValue r
          pure (isTruthy v)
      | none => pure true)
    if !go then pure ()
    else do
      prev.evalBlockStatementF body loopEnv
      let st ← getState
      if st.shouldReturn then pure ()
      else if st.shouldBreak then modifyState (fun s => { s with shouldBreak := false })
      else do
        (if st.shouldContinue then modifyState (fun s => { s with shouldContinue := false })
         else pure ())
        (match post with
         | some p => do
             let _ ← prev.evalExpressionF p loopEnv
             pure ()
         | none => pure ())
        prev.evalForLoopF cond post body loopEnv
  /- `Interpreter.evalFunctionBody` (interpreter.go): clears the return flags,
  runs the block, then produces the recorded return value or a default
  `&Value{Type: "int", Int: 0}`.  A `none` body is a Go-nil `*BlockStatement`;
  ranging over its `Statements` field panics. -/
  evalFunctionBodyF := fun body env => do
    modifyState (fun s => { s with shouldReturn := false, returnValue := none })
    match body with
    | none => panicM "invalid memory address or nil pointer dereference"
    | some stmts => do
        prev.evalBlockStatementF stmts env
        let st ← getState
        match st.returnValue with
        | some rv => pure rv
        | none => allocValue (intValue 0)
  /- `Interpreter.evalExpression` (interpreter.go).  `ArrayExpression` has no
  case in the Go type switch (and neither does a nil expression), so both fall
  through to the "unknown expression type" error. -/
  evalExpressionF := fun e env =>
    match e with
    | .IntegerLiteral n => allocValue (intValue n)
    | .FloatLiteral q => allocValue (floatValue q)
    | .StringLiteral str => allocValue ⟨"string", 0, 0, str⟩
    | .CharLiteral b => allocValue ⟨"char", (b : Int), 0, ""⟩
    | .Identifier name => do
        let r ← envGet env name
        (match r with
         | some v => pure v
         | none => errM ("undefined variable: " ++ name))
    | .PrefixExpression op right => prev.evalPrefixExpressionF op right env
    | .PostfixExpression left op => prev.evalPostfixExpressionF left op env
    | .InfixExpression l op r => prev.evalInfixExpressionF l op r env
    | .AssignmentExpression l op r => prev.evalAssignmentExpressionF l op r env
    | .CallExpression f args => prev.evalCallExpressionF f args env
    | .ConditionalExpression c t a => prev.evalConditionalExpressionF c t a env
    | .ArrayExpression _ _ => errM "unknown expression type"
    | .nilExpression => errM "unknown expression type"
  /- `Interpreter.evalPrefixExpression` (interpreter.go).  Pre-`++`/`--` on a
  non-identifier falls out of the switch into the unknown-operator error; on an
  identifier, the stored cell is mutated in place (`val.Int++`). -/
  evalPrefixExpressionF := fun op right env => do
    let r ← prev.evalExpressionF right env
    let rv ← readValue r
    if op = "-" then
      if rv.vtype = "float" then allocValue (floatValue (-rv.vflt))
      else allocValue (intValue (wrap64 (-rv.vint)))
    else if op = "!" then allocValue (intValue (boolToInt (!(isTruthy rv))))
    else if op = "~" then allocValue (intValue (wrap64 (-rv.vint - 1)))
    else if op = "++" then
      match right with
      | .Identifier name => do
          let vr ← envGet env name
          (match vr with
           | some addr => do
               let v ← readValue addr
               writeValue addr { v with vint := wrap64 (v.vint + 1) }
               pure addr
           | none => panicM "invalid memory address or nil pointer dereference")
      | _ => errM ("unknown prefix operator: " ++ op)
    else if op = "--" then
      match right with
      | .Identifier name => do
          let vr ← envGet env name
          (match vr with
           | some addr => do
               let v ← readValue addr
               writeValue addr { v with vint := wrap64 (v.vint - 1) }
               pure addr
           | none => panicM "invalid memory address or nil pointer dereference")
      | _ => errM ("unknown prefix operator: " ++ op)
    else errM ("unknown prefix operator: " ++ op)
  /- `Interpreter.evalPostfixExpression` (interpreter.go): the returned
  `oldValue` copies the `Type`, `Int` and `Float` fields but not `Str`, as in
  the source; a non-identifier operand is silently left unmutated. -/
  evalPostfixExpressionF := fun left op env => do
    let l ← prev.evalExpressionF left env
    let lv ← readValue l
    let oldValue : Value := ⟨lv.vtype, lv.vint, lv.vflt, ""⟩
    if op = "++" then do
      (match left with
       | .Identifier name => do
           let vr ← envGet env name
           (match vr with
            | some addr => do
                let v ← readValue addr
                writeValue addr { v with vint := wrap64 (v.vint + 1) }
            | none => panicM "invalid memory address or nil pointer dereference")
       | _ => pure ())
      allocValue oldValue
    else if op = "--" then do
      (match left with
       | .Identifier name => do
           let vr ← envGet env name
           (match vr with
            | some addr => do
                let v ← readValue addr
                writeValue addr { v with vint := wrap64 (v.vint - 1) }
            | none => panicM "invalid memory address or nil pointer dereference")
       | _ => pure ())
      allocValue oldValue
    else errM ("unknown postfix operator: " ++ op)
  /- `Interpreter.evalInfixExpression` (interpreter.go): both operands are
  always evaluated, left first, before any combination happens. -/
  evalInfixExpressionF := fun l op r env => do
    let la ← prev.evalExpressionF l env
    let ra ← prev.evalExpressionF r env
    let lv ← readValue la
    let rv ← readValue ra
    if lv.vtype = "float" || rv.vtype = "float" then floatInfixOp op lv rv
    else intInfixOp op lv rv
  /- `Interpreter.evalAssignmentExpression` (interpreter.go): the right-hand
  side is evaluated first; a plain `=` stores the right-hand `*Value` itself
  into the CURRENT environment via `Environment.Set` (never an outer one); a
  compound assignment reads the existing binding wherever `Get` finds it,
  builds a fresh value, and again stores it into the current environment. -/
  evalAssignmentExpressionF := fun left op right env => do
    let r ← prev.evalExpressionF right env
    match left with
    | .Identifier name =>
      if op = "=" then do
        envSet env name r
        pure r
      else do
        let lr ← envGet env name
        (match lr with
         | none => errM ("undefined variable: " ++ name)
         | some la => do
             let lv ← readValue la
             let rv ← readValue r
             match compoundResult op lv rv with
             | .ok v => do
                 let addr ← allocValue v
                 envSet env name addr
                 pure addr
             | .err e => errM e
             | .panic e => panicM e
             | .timeout => timeoutM)
    | _ => errM "invalid assignment target"
  /- `Interpreter.evalCallExpression` (interpreter.go): builtins are checked
  first; for a user-defined function the return flags are snapshotted, a fresh
  environment enclosed in the GLOBAL scope is created, parameters are bound,
  the body runs, and the flags are restored afterwards (also when the body
  returned an error; not when it panicked, since a Go panic unwinds past the
  restore statements). -/
  evalCallExpressionF := fun fnExpr args env =>
    match fnExpr with
    | .Identifier funcName =>
      if builtinNames.contains funcName then prev.evalBuiltinF funcName args env
      else do
        let st ← getState
        match assocGet st.functions funcName with
        | some fn => do
            let savedShouldReturn := st.shouldReturn
            let savedReturnValue := st.returnValue
            let fnEnv ← NewEnclosedEnvironment st.globals
            prev.bindParametersF fn.parameters args env fnEnv
            let r ← catchErr (prev.evalFunctionBodyF fn.body fnEnv)
            modifyState (fun s =>
              { s with shouldReturn := savedShouldReturn, returnValue := savedReturnValue })
            (match r with
             | .ok v => pure v
             | .error e => errM e)
        | none => errM ("undefined function: " ++ funcName)
    | _ => errM "invalid function call"
  /- The parameter-binding loop of `evalCallExpression`: arguments are
  evaluated in the caller's environment and bound positionally into the callee
  environment; parameters beyond the argument list are skipped (left without a
  binding). -/
  bindParametersF := fun params args env fnEnv =>
    match params, args with
    | [], _ => pure ()
    | _ :: prest, [] => prev.bindParametersF prest [] env fnEnv
    | p :: prest, a :: arest => do
        let v ← prev.evalExpressionF a env
        envSet fnEnv p.name v
        prev.bindParametersF prest arest env fnEnv
  /- `Interpreter.evalConditionalExpression` (interpreter.go). -/
  evalConditionalExpressionF := fun c cons alt env => do
    let r ← prev.evalExpressionF c env
    let v ← readValue r
    if isTruthy v then prev.evalExpressionF cons env
    else prev.evalExpressionF alt env
  /- The builtin implementations of `registerBuiltins` (interpreter.go).
  Host-side effects (stdout, sleeping) and the numeric results of the host math
  library are outside the scope of every claim and are not modelled; argument
  evaluation order, arity errors, error propagation, and result value types are
  modelled faithfully.  The final branch is unreachable: the caller dispatches
  here only for members of `builtinNames`. -/
  evalBuiltinF := fun name args env =>
    if name = "printf" then
      match args with
      | [] => allocValue (intValue 0)
      | a0 :: rest => do
          let _ ← prev.evalExpressionF a0 env
          prev.evalArgsLoopF rest env
          allocValue (intValue 0)
    else if name = "sleep" then
      match args with
      | [] => allocValue (intValue 0)
      | a0 :: _ => do
          let _ ← prev.evalExpressionF a0 env
          allocValue (intValue 0)
    else if name = "putchar" then
      match args with
      | [] => allocValue (intValue 0)
      | a0 :: _ => do
          let r ← prev.evalExpressionF a0 env
          let v ← readValue r
          allocValue (intValue v.vint)
    else if name = "pow" then
      match args with
      | a0 :: a1 :: _ => do
          let _ ← prev.evalExpressionF a0 env
          let _ ← prev.evalExpressionF a1 env
          allocValue (floatValue 0)
      | _ => errM "pow requires 2 arguments"
    else if name = "abs" then
      match args with
      | [] => errM "abs requires 1 argument"
      | a0 :: _ => do
          let r ← prev.evalExpressionF a0 env
          let v ← readValue r
          if v.vtype = "float" then
            allocValue (floatValue (if v.vflt < 0 then -v.vflt else v.vflt))
          else if v.vint < 0 then allocValue (intValue (wrap64 (-v.vint)))
          else allocValue (intValue v.vint)
    else if unaryMathNames.contains name then
      match args with
      | [] => errM (name ++ " requires 1 argument")
      | a0 :: _ => do
          let r ← prev.evalExpressionF a0 env
          let _ ← readValue r
          allocValue (floatValue 0)
    else panicM "builtin dispatch invariant"
  /- The argument loop of the `printf` builtin: evaluates each remaining
  argument in order, propagating the first error. -/
  evalArgsLoopF := fun args env =>
    match args with
    | [] => pure ()
    | a :: rest => do
        let _ ← prev.evalExpressionF a env
        prev.evalArgsLoopF rest env

/-- The evaluator at a given fuel, as a lazy `Nat.rec` iteration. -/
def evalFns (fuel : Nat) : EvalFns :=
  Nat.rec timeoutFns (fun _ prev => evalStep prev) fuel

/-- `evalStatement` of interpreter.go at explicit fuel; see `evalStep`. -/
def evalStatement (fuel : Nat) : Statement → Nat → M Unit :=
  fun a0 a1 => (evalFns fuel).evalStatementF a0 a1

/-- `evalVarDecl` of interpreter.go at explicit fuel; see `evalStep`. -/
def evalVarDecl (fuel : Nat) : String → String → Option Expression → Nat → M Unit :=
  fun a0 a1 a2 a3 => (evalFns fuel).evalVarDeclF a0 a1 a2 a3

/-- `evalBlockStatement` of interpreter.go at explicit fuel; see `evalStep`. -/
def evalBlockStatement (fuel : Nat) : List Statement → Nat → M Unit :=
  fun a0 a1 => (evalFns fuel).evalBlockStatementF a0 a1

/-- `evalIfStatement` of interpreter.go at explicit fuel; see `evalStep`. -/
def evalIfStatement (fuel : Nat) : Expression → List Statement → Option (List Statement) → Nat → M Unit :=
  fun a0 a1 a2 a3 => (evalFns fuel).evalIfStatementF a0 a1 a2 a3

/-- `evalWhileStatement` of interpreter.go at explicit fuel; see `evalStep`. -/
def evalWhileStatement (fuel : Nat) : Expression → List Statement → Nat → M Unit :=
  fun a0 a1 a2 => (evalFns fuel).evalWhileStatementF a0 a1 a2

/-- `evalForStatement` of interpreter.go at explicit fuel; see `evalStep`. -/
def evalForStatement (fuel : Nat) : Option Statement → Option Expression → Option Expression → List Statement → Nat → M Unit :=
  fun a0 a1 a2 a3 a4 => (evalFns fuel).evalForStatementF a0 a1 a2 a3 a4

/-- `evalForLoop` of interpreter.go at explicit fuel; see `evalStep`. -/
def evalForLoop (fuel : Nat) : Option Expression → Option Expression → List Statement → Nat → M Unit :=
  fun a0 a1 a2 a3 => (evalFns fuel).evalForLoopF a0 a1 a2 a3

/-- `evalFunctionBody` of interpreter.go at explicit fuel; see `evalStep`. -/
def evalFunctionBody (fuel : Nat) : Option (List Statement) → Nat → M Nat :=
  fun a0 a1 => (evalFns fuel).evalFunctionBodyF a0 a1

/-- `evalExpression` of interpreter.go at explicit fuel; see `evalStep`. -/
def evalExpression (fuel : Nat) : Expression → Nat → M Nat :=
  fun a0 a1 => (evalFns fuel).evalExpressionF a0 a1

/-- `evalPrefixExpression` of interpreter.go at explicit fuel; see `evalStep`. -/
def evalPrefixExpression (fuel : Nat) : String → Expression → Nat → M Nat :=
  fun a0 a1 a2 => (evalFns fuel).evalPrefixExpressionF a0 a1 a2

/-- `evalPostfixExpression` of interpreter.go at explicit fuel; see `evalStep`. -/
def evalPostfixExpression (fuel : Nat) : Expression → String → Nat → M Nat :=
  fun a0 a1 a2 => (evalFns fuel).evalPostfixExpressionF a0 a1 a2

/-- `evalInfixExpression` of interpreter.go at explicit fuel; see `evalStep`. -/
def evalInfixExpression (fuel : Nat) : Expression → String → Expression → Nat → M Nat :=
  fun a0 a1 a2 a3 => (evalFns fuel).evalInfixExpressionF a0 a1 a2 a3

/-- `evalAssignmentExpression` of interpreter.go at explicit fuel; see `evalStep`. -/
def evalAssignmentExpression (fuel : Nat) : Expression → String → Expression → Nat → M Nat :=
  fun a0 a1 a2 a3 => (evalFns fuel).evalAssignmentExpressionF a0 a1 a2 a3

/-- `evalCallExpression` of interpreter.go at explicit fuel; see `evalStep`. -/
def evalCallExpression (fuel : Nat) : Expression → List Expression → Nat → M Nat :=
  fun a0 a1 a2 => (evalFns fuel).evalCallExpressionF a0 a1 a2

/-- `bindParameters` of interpreter.go at explicit fuel; see `evalStep`. -/
def bindParameters (fuel : Nat) : List Parameter → List Expression → Nat → Nat → M Unit :=
  fun a0 a1 a2 a3 => (evalFns fuel).bindParametersF a0 a1 a2 a3

/-- `evalConditionalExpression` of interpreter.go at explicit fuel; see `evalStep`. -/
def evalConditionalExpression (fuel : Nat) : Expression → Expression → Expression → Nat → M Nat :=
  fun a0 a1 a2 a3 => (evalFns fuel).evalConditionalExpressionF a0 a1 a2 a3

/-- `evalBuiltin` of interpreter.go at explicit fuel; see `evalStep`. -/
def evalBuiltin (fuel : Nat) : String → List Expression → Nat → M Nat :=
  fun a0 a1 a2 => (evalFns fuel).evalBuiltinF a0 a1 a2

/-- `evalArgsLoop` of interpreter.go at explicit fuel; see `evalStep`. -/
def evalArgsLoop (fuel : Nat) : List Expression → Nat → M Unit :=
  fun a0 a1 => (evalFns fuel).evalArgsLoopF a0 a1


/-- The loop in `NewInterpreter` (interpreter.go) collecting `FunctionDecl`
statements into the name-indexed functions map; a later declaration with the
same name overwrites an earlier one, as a Go map assignment does.  Every
other statement kind — in particular top-level variable declarations — is
ignored. -/
def collectFunctions : List Statement → List (String × FunctionDecl) → List (String × FunctionDecl)
  | [], acc => acc
  | .FunctionDeclStmt fd :: rest, acc => collectFunctions rest (assocSet acc fd.name fd)
  | _ :: rest, acc => collectFunctions rest acc

/-- `NewInterpreter` (interpreter.go): fresh global environment (heap index
0), the fixed builtin registry (embedded as `builtinNames`/`evalBuiltin`),
and the program's function declarations indexed by name. -/
def NewInterpreter (program : List Statement) : IState :=
  { venv := []
    eenv := [⟨[], none⟩]
    globals := 0
    functions := collectFunctions program []
    stepMode := false
    stepIndex := 0
    stepStack := []
    currentEnv := none
    shouldReturn := false
    returnValue := none
    shouldBreak := false
    shouldContinue := false }

/-- `Interpreter.EnableSingleStep` (interpreter.go). -/
def EnableSingleStep (s : IState) : IState := { s with stepMode := true }

/-- `Interpreter.DisableSingleStep` (interpreter.go). -/
def DisableSingleStep (s : IState) : IState := { s with stepMode := false }

/-- `Interpreter.Run` (interpreter.go).  Note the Go signature: `Run` returns
only an `error`; the value computed by `evalFunctionBody` is discarded
(`_, err := i.evalFunctionBody(...)`). -/
def Run (fuel : Nat) : M Unit := do
  let st ← getState
  match assocGet st.functions "main" with
  | some mainFn => do
      let env ← NewEnclosedEnvironment st.globals
      modifyState (fun s => { s with currentEnv := some env })
      let _ ← evalFunctionBody fuel mainFn.body env
      pure ()
  | none => errM "no main function found"

/-- Go struct `StepResult` (interpreter.go).  The `Line` field is declared in
the source but never assigned by `Step`; it is omitted. -/
structure StepResult where
  Statement : Option Statement := none
  Done : Bool := false
  Returned : Bool := false
  ReturnVal : Option Nat := none
  Break : Bool := false
  Continue : Bool := false
  Error : Option String := none

/-- `Interpreter.Step` (interpreter.go).  The `get?` fallback and the
missing-environment fallback are unreachable for states produced by
`NewInterpreter` (the index was just checked against the length, and the
init branch installs `currentEnv` together with the queue); Go would panic
in those situations, which the fallbacks mirror conservatively. -/
def Step (fuel : Nat) : M StepResult := do
  let st0 ← getState
  if !st0.stepMode then
    pure { Error := some "single-step mode not enabled" }
  else do
    let initOk ← (if st0.stepIndex = 0 && st0.stepStack.isEmpty then
        match assocGet st0.functions "main" with
        | some mainFn =>
          (match mainFn.body with
           | some body => do
               let env ← NewEnclosedEnvironment st0.globals
               modifyState (fun s =>
                 { s with currentEnv := some env, stepStack := s.stepStack ++ body })
               pure true
           | none => pure true)
        | none => pure false
      else pure true)
    if !initOk then
      pure { Error := some "no main function found", Done := true }
    else do
      let st ← getState
      if st.stepStack.length ≤ st.stepIndex then
        pure { Done := true }
      else
        match st.stepStack.get? st.stepIndex with
        | none => panicM "index out of range"
        | some stmt => do
            modifyState (fun s => { s with stepIndex := s.stepIndex + 1 })
            let envRef ← (match st.currentEnv with
              | some e => pure e
              | none => panicM "invalid memory address or nil pointer dereference")
            let r ← catchErr (evalStatement fuel stmt envRef)
            let st2 ← getState
            pure { Statement := some stmt
                   Done := st2.stepStack.length ≤ st2.stepIndex || st2.shouldReturn
                   Returned := st2.shouldReturn
                   ReturnVal := st2.returnValue
                   Break := st2.shouldBreak
                   Continue := st2.shouldContinue
                   Error := match r with | .ok _ => none | .error e => some e }

/-- `Interpreter.Reset` (interpreter.go).  Note it installs a fresh ROOT
environment (not enclosed in the globals). -/
def Reset : M Unit := do
  modifyState (fun s => { s with stepIndex := 0, stepStack := [] })
  let env ← NewEnvironment
  modifyState (fun s =>
    { s with currentEnv := some env, shouldReturn := false, returnValue := none,
             shouldBreak := false, shouldContinue := false })

/-! ## The expression level of the parser (parser.go)

Only the token kinds the expression parser inspects are embedded; keyword
token kinds (`IF`, `WHILE`, ...) are only consulted by the statement-level
parser, which no claim concerns, and they would hit the same default branches
as `ILLEGAL` here. -/

/-- The `TokenType` constants of token.go that the expression parser and its
precedence table mention. -/
inductive TokenType where
  | EOF
  | ILLEGAL
  | IDENT
  | INT
  | FLOAT
  | CHAR
  | STRING
  | PLUS
  | MINUS
  | STAR
  | SLASH
  | PERCENT
  | ASSIGN
  | EQ
  | NEQ
  | LT
  | GT
  | LTE
  | GTE
  | AND
  | OR
  | NOT
  | BITAND
  | BITOR
  | BITXOR
  | BITNOT
  | LSHIFT
  | RSHIFT
  | INC
  | DEC
  | PLUSEQ
  | MINUSEQ
  | STAREQ
  | SLASHEQ
  | PERCENTEQ
  | LPAREN
  | RPAREN
  | LBRACE
  | RBRACE
  | LBRACKET
  | RBRACKET
  | SEMICOLON
  | COMMA
  | QUESTION
  | COLON
deriving DecidableEq, Repr

/-- Go struct `Token` (token.go): `Type`, `Literal`, `Line` (the field names
are lowercased; the `Column` field is never read by the parser and is
omitted). -/
structure Token where
  ttype : TokenType
  literal : String
  line : Nat
deriving DecidableEq, Repr

def eofToken : Token := ⟨.EOF, "", 0⟩

/-- The parser state: the remaining token stream (`curToken` is the head,
`peekToken` the next element; the lexer yields `EOF` forever once exhausted,
modelled by padding with `eofToken`) and the accumulated diagnostics. -/
structure PState where
  toks : List Token
  errors : List String
deriving DecidableEq, Repr

def pCur (p : PState) : Token := p.toks.headD eofToken

def pPeek (p : PState) : Token := (p.toks.drop 1).headD eofToken

/-- `Parser.nextToken`. -/
def pNext (p : PState) : PState := { p with toks := p.toks.tail }

/-- `Parser.peekError` (parser.go): records a diagnostic.  The exact message
text (built with `fmt.Sprintf` from the expected and actual token kinds) is
abbreviated; no claim depends on it. -/
def peekError (t : TokenType) (p : PState) : PState :=
  { p with errors := p.errors ++ ["expected next token, line " ++ toString (pPeek p).line] }

/-- `Parser.expectPeek` (parser.go): advance past an expected token or record
a diagnostic and stay. -/
def expectPeek (t : TokenType) (p : PState) : Bool × PState :=
  if (pPeek p).ttype = t then (true, pNext p) else (false, peekError t p)

/-- The precedence constants of parser.go (`iota`-numbered from 1). -/
def LOWEST : Nat := 1
def ASSIGN_PREC : Nat := 2
def CONDITIONAL : Nat := 3
def LOGOR : Nat := 4
def LOGAND : Nat := 5
def BITOR_PREC : Nat := 6
def BITXOR_PREC : Nat := 7
def BITAND_PREC : Nat := 8
def EQUALS : Nat := 9
def LESSGREATER : Nat := 10
def SHIFT : Nat := 11
def SUM : Nat := 12
def PRODUCT : Nat := 13
def PREFIX_PREC : Nat := 14
def POSTFIX_PREC : Nat := 15
def CALL_PREC : Nat := 16
def INDEX_PREC : Nat := 17

/-- The `precedences` map of parser.go, with the `LOWEST` default applied by
`peekPrecedence`/`curPrecedence` for token kinds not in the map. -/
def precedences : TokenType → Nat
  | .ASSIGN => ASSIGN_PREC
  | .PLUSEQ => ASSIGN_PREC
  | .MINUSEQ => ASSIGN_PREC
  | .STAREQ => ASSIGN_PREC
  | .SLASHEQ => ASSIGN_PREC
  | .PERCENTEQ => ASSIGN_PREC
  | .OR => LOGOR
  | .AND => LOGAND
  | .BITOR => BITOR_PREC
  | .BITXOR => BITXOR_PREC
  | .BITAND => BITAND_PREC
  | .EQ => EQUALS
  | .NEQ => EQUALS
  | .LT => LESSGREATER
  | .GT => LESSGREATER
  | .LTE => LESSGREATER
  | .GTE => LESSGREATER
  | .LSHIFT => SHIFT
  | .RSHIFT => SHIFT
  | .PLUS => SUM
  | .MINUS => SUM
  | .SLASH => PRODUCT
  | .STAR => PRODUCT
  | .PERCENT => PRODUCT
  | .INC => POSTFIX_PREC
  | .DEC => POSTFIX_PREC
  | .LPAREN => CALL_PREC
  | .LBRACKET => INDEX_PREC
  | .QUESTION => CONDITIONAL
  | _ => LOWEST

/-- `Parser.peekPrecedence`. -/
def peekPrecedence (p : PState) : Nat := precedences (pPeek p).ttype

/-- `Parser.curPrecedence`. -/
def curPrecedence (p : PState) : Nat := precedences (pCur p).ttype

/-- `strconv.ParseInt(lit, 10, 64)` as used for integer literals: the parsed
value is used even when an error is returned (out-of-range input saturates;
unparsable input leaves the zero value). -/
def parseIntLiteral (lit : String) : Int :=
  match lit.toInt? with
  | some n =>
      if n > 9223372036854775807 then 9223372036854775807
      else if n < -9223372036854775808 then -9223372036854775808
      else n
  | none => 0

/-- The `CHAR` case of `parseExpression`: the first byte of the literal, or
the zero byte for an empty literal. -/
def charLiteralValue (lit : String) : Nat :=
  match lit.data with
  | c :: _ => c.toNat
  | [] => 0

mutual

/-- `Parser.parseExpression` (parser.go).  The result is `none` only on fuel
exhaustion of the embedding; a Go `return nil` is `.nilExpression` (and, as
in Go, skips the infix loop entirely).  The prefix-position dispatch is the
first `switch`; the loop is `parseInfixLoop`. -/
def parseExpression : Nat → Nat → PState → Option (Expression × PState)
  | 0, _, _ => none
  | fuel + 1, precedence, p =>
    match (pCur p).ttype with
    | .IDENT => parseInfixLoop fuel precedence (.Identifier (pCur p).literal) p
    | .INT => parseInfixLoop fuel precedence (.IntegerLiteral (parseIntLiteral (pCur p).literal)) p
    | .FLOAT =>
        -- the float64 value of the literal is irrelevant to every claim;
        -- see the module comment on floats
        parseInfixLoop fuel precedence (.FloatLiteral 0) p
    | .STRING => parseInfixLoop fuel precedence (.StringLiteral (pCur p).literal) p
    | .CHAR => parseInfixLoop fuel precedence (.CharLiteral (charLiteralValue (pCur p).literal)) p
    | .MINUS => parsePrefixThenLoop fuel precedence p
    | .NOT => parsePrefixThenLoop fuel precedence p
    | .BITNOT => parsePrefixThenLoop fuel precedence p
    | .INC => parsePrefixThenLoop fuel precedence p
    | .DEC => parsePrefixThenLoop fuel precedence p
    | .STAR => parsePrefixThenLoop fuel precedence p
    | .BITAND => parsePrefixThenLoop fuel precedence p
    | .LPAREN =>
        let p1 := pNext p
        (parseExpression fuel LOWEST p1).bind (fun ep =>
          match expectPeek .RPAREN ep.2 with
          | (true, p2) => parseInfixLoop fuel precedence ep.1 p2
          | (false, p2) => some (.nilExpression, p2))
    | _ => some (.nilExpression, p)
termination_by structural f _ _ => f

/-- The `MINUS, NOT, BITNOT, INC, DEC, STAR, BITAND` prefix case of
`parseExpression`: `parsePrefixExpression` followed by the shared infix
loop. -/
def parsePrefixThenLoop : Nat → Nat → PState → Option (Expression × PState)
  | 0, _, _ => none
  | fuel + 1, precedence, p =>
    (parsePrefixExpression fuel p).bind (fun ep =>
      parseInfixLoop fuel precedence ep.1 ep.2)
termination_by structural f _ _ => f

/-- The infix `for` loop of `Parser.parseExpression`: as long as the peek
token is not a semicolon and binds tighter than `precedence`, consume one
infix construct; the `default` case returns the expression built so far. -/
def parseInfixLoop : Nat → Nat → Expression → PState → Option (Expression × PState)
  | 0, _, _, _ => none
  | fuel + 1, precedence, leftExp, p =>
    if (pPeek p).ttype = .SEMICOLON || !(precedence < peekPrecedence p) then
      some (leftExp, p)
    else
      match (pPeek p).ttype with
      | .PLUS => parseInfixStep fuel precedence leftExp p
      | .MINUS => parseInfixStep fuel precedence leftExp p
      | .STAR => parseInfixStep fuel precedence leftExp p
      | .SLASH => parseInfixStep fuel precedence leftExp p
      | .PERCENT => parseInfixStep fuel precedence leftExp p
      | .EQ => parseInfixStep fuel precedence leftExp p
      | .NEQ => parseInfixStep fuel precedence leftExp p
      | .LT => parseInfixStep fuel precedence leftExp p
      | .GT => parseInfixStep fuel precedence leftExp p
      | .LTE => parseInfixStep fuel precedence leftExp p
      | .GTE => parseInfixStep fuel precedence leftExp p
      | .AND => parseInfixStep fuel precedence leftExp p
      | .OR => parseInfixStep fuel precedence leftExp p
      | .BITAND => parseInfixStep fuel precedence leftExp p
      | .BITOR => parseInfixStep fuel precedence leftExp p
      | .BITXOR => parseInfixStep fuel precedence leftExp p
      | .LSHIFT => parseInfixStep fuel precedence leftExp p
      | .RSHIFT => parseInfixStep fuel precedence leftExp p
      | .ASSIGN => parseAssignStep fuel precedence leftExp p
      | .PLUSEQ => parseAssignStep fuel precedence leftExp p
      | .MINUSEQ => parseAssignStep fuel precedence leftExp p
      | .STAREQ => parseAssignStep fuel precedence leftExp p
      | .SLASHEQ => parseAssignStep fuel precedence leftExp p
      | .PERCENTEQ => parseAssignStep fuel precedence leftExp p
      | .INC =>
          let p1 := pNext p
          parseInfixLoop fuel precedence (.PostfixExpression leftExp (pCur p1).literal) p1
      | .DEC =>
          let p1 := pNext p
          parseInfixLoop fuel precedence (.PostfixExpression leftExp (pCur p1).literal) p1
      | .LPAREN =>
          let p1 := pNext p
          (parseCallExpression fuel leftExp p1).bind (fun ep =>
            parseInfixLoop fuel precedence ep.1 ep.2)
      | .LBRACKET =>
          let p1 := pNext p
          (parseArrayExpression fuel leftExp p1).bind (fun ep =>
            parseInfixLoop fuel precedence ep.1 ep.2)
      | .QUESTION =>
          let p1 := pNext p
          (parseConditionalExpression fuel leftExp p1).bind (fun ep =>
            parseInfixLoop fuel precedence ep.1 ep.2)
      | _ => some (leftExp, p)
termination_by structural f _ _ _ => f

/-- One binary-operator iteration of the infix loop: `p.nextToken()` then
`parseInfixExpression` then back to the loop. -/
def parseInfixStep : Nat → Nat → Expression → PState → Option (Expression × PState)
  | 0, _, _, _ => none
  | fuel + 1, precedence, leftExp, p =>
    let p1 := pNext p
    (parseInfixExpression fuel leftExp p1).bind (fun ep =>
      parseInfixLoop fuel precedence ep.1 ep.2)
termination_by structural f _ _ _ => f

/-- One assignment-operator iteration of the infix loop. -/
def parseAssignStep : Nat → Nat → Expression → PState → Option (Expression × PState)
  | 0, _, _, _ => none
  | fuel + 1, precedence, leftExp, p =>
    let p1 := pNext p
    (parseAssignmentExpression fuel leftExp p1).bind (fun ep =>
      parseInfixLoop fuel precedence ep.1 ep.2)
termination_by structural f _ _ _ => f

/-- `Parser.parsePrefixExpression` (parser.go): operand parsed at `PREFIX`
precedence. -/
def parsePrefixExpression : Nat → PState → Option (Expression × PState)
  | 0, _ => none
  | fuel + 1, p =>
    let operator := (pCur p).literal
    let p1 := pNext p
    (parseExpression fuel PREFIX_PREC p1).bind (fun ep =>
      some (.PrefixExpression operator ep.1, ep.2))
termination_by structural f _ => f

/-- `Parser.parseInfixExpression` (parser.go): the right operand is parsed at
the operator's own precedence (`curPrecedence` before advancing). -/
def parseInfixExpression : Nat → Expression → PState → Option (Expression × PState)
  | 0, _, _ => none
  | fuel + 1, left, p =>
    let operator := (pCur p).literal
    let precedence := curPrecedence p
    let p1 := pNext p
    (parseExpression fuel precedence p1).bind (fun ep =>
      some (.InfixExpression left operator ep.1, ep.2))
termination_by structural f _ _ => f

/-- `Parser.parseAssignmentExpression` (parser.go): the right-hand side is
parsed at `ASSIGN_PREC` (the operator's own level). -/
def parseAssignmentExpression : Nat → Expression → PState → Option (Expression × PState)
  | 0, _, _ => none
  | fuel + 1, left, p =>
    let operator := (pCur p).literal
    let p1 := pNext p
    (parseExpression fuel ASSIGN_PREC p1).bind (fun ep =>
      some (.AssignmentExpression left operator ep.1, ep.2))
termination_by structural f _ _ => f

/-- `Parser.parseConditionalExpression` (parser.go): consequence at `LOWEST`,
a required `:` (its absence aborts with a Go-nil result), alternative at
`CONDITIONAL` (the operator's own level). -/
def parseConditionalExpression : Nat → Expression → PState → Option (Expression × PState)
  | 0, _, _ => none
  | fuel + 1, condition, p =>
    let p1 := pNext p
    (parseExpression fuel LOWEST p1).bind (fun consP =>
      match expectPeek .COLON consP.2 with
      | (false, p2) => some (.nilExpression, p2)
      | (true, p2) =>
        let p3 := pNext p2
        (parseExpression fuel CONDITIONAL p3).bind (fun altP =>
          some (.ConditionalExpression condition consP.1 altP.1, altP.2)))
termination_by structural f _ _ => f

/-- `Parser.parseCallExpression` (parser.go).  A failed argument list is a Go
nil slice, indistinguishable from an empty one for the evaluator; both are
`[]`. -/
def parseCallExpression : Nat → Expression → PState → Option (Expression × PState)
  | 0, _, _ => none
  | fuel + 1, function, p =>
    (parseExpressionList fuel .RPAREN p).bind (fun argsP =>
      some (.CallExpression function argsP.1, argsP.2))
termination_by structural f _ _ => f

/-- `Parser.parseArrayExpression` (parser.go). -/
def parseArrayExpression : Nat → Expression → PState → Option (Expression × PState)
  | 0, _, _ => none
  | fuel + 1, left, p =>
    let p1 := pNext p
    (parseExpression fuel LOWEST p1).bind (fun idxP =>
      match expectPeek .RBRACKET idxP.2 with
      | (true, p2) => some (.ArrayExpression left idxP.1, p2)
      | (false, p2) => some (.nilExpression, p2))
termination_by structural f _ _ => f

/-- `Parser.parseExpressionList` (parser.go). -/
def parseExpressionList : Nat → TokenType → PState → Option (List Expression × PState)
  | 0, _, _ => none
  | fuel + 1, endTok, p =>
    if (pPeek p).ttype = endTok then
      some ([], pNext p)
    else
      let p1 := pNext p
      (parseExpression fuel LOWEST p1).bind (fun ep =>
        parseExpressionListRest fuel endTok [ep.1] ep.2)
termination_by structural f _ _ => f

/-- The comma loop plus the final `expectPeek(end)` of
`parseExpressionList`. -/
def parseExpressionListRest :
    Nat → TokenType → List Expression → PState → Option (List Expression × PState)
  | 0, _, _, _ => none
  | fuel + 1, endTok, acc, p =>
    if (pPeek p).ttype = .COMMA then
      let p1 := pNext (pNext p)
      (parseExpression fuel LOWEST p1).bind (fun ep =>
        parseExpressionListRest fuel endTok (acc ++ [ep.1]) ep.2)
    else
      match expectPeek endTok p with
      | (true, p2) => some (acc, p2)
      | (false, p2) => some ([], p2)
termination_by structural f _ _ _ => f

end

/-! ## Observers and example programs

Small observers over the embedded interpreter (dereferencing the heaps the
way a test harness would), and the example programs used by the theorems.
All programs are written as the AST that parser.go produces for the
corresponding source text. -/

/-- Observer: look a variable up through the current environment chain and
dereference it (what reading the variable after a run observes). -/
def lookupVar (s : IState) (name : String) : Option Value :=
  match s.currentEnv with
  | none => none
  | some e =>
    match envGetAux s.eenv s.eenv.length e name with
    | some a => s.venv.get? a
    | none => none

/-- Observer: execute `main` exactly the way `Run` does, but keep the value
that `evalFunctionBody` computes — the "effective return value" (explicit
return value or default zero) that `Run` itself discards — dereferenced from
the heap.  `none` when `main` is absent or the run does not complete
normally. -/
def mainEffectiveValue (fuel : Nat) (program : List Statement) : Option Value :=
  let s := NewInterpreter program
  match assocGet s.functions "main" with
  | none => none
  | some fn =>
    match NewEnclosedEnvironment s.globals s with
    | (.ok env, s1) =>
      match evalFunctionBody fuel fn.body env { s1 with currentEnv := some env } with
      | (.ok r, s2) => s2.venv.get? r
      | _ => none
    | _ => none

/-- Observer: the `error` outcome of `Run` on a freshly constructed
interpreter. -/
def runOutcome (fuel : Nat) (program : List Statement) : EvalOut Unit :=
  (Run fuel (NewInterpreter program)).1

/-- Observer: the interpreter state after `Run` on a freshly constructed
interpreter. -/
def runFinalState (fuel : Nat) (program : List Statement) : IState :=
  (Run fuel (NewInterpreter program)).2

/-- `name op expr;` as an expression statement (e.g. `sum += i;`). -/
def assignStmt (name : String) (operator : String) (e : Expression) : Statement :=
  .ExpressionStatement (.AssignmentExpression (.Identifier name) operator e)

/-- `for (i = 0; i < n; i++) { body }` as parser.go builds it. -/
def countingFor (n : Int) (body : List Statement) : Statement :=
  .ForStatement (some (assignStmt "i" "=" (.IntegerLiteral 0)))
    (some (.InfixExpression (.Identifier "i") "<" (.IntegerLiteral n)))
    (some (.PostfixExpression (.Identifier "i") "++"))
    body

/-- A program whose only declaration is `int main() { body }`. -/
def mainProgram (body : List Statement) : List Statement :=
  [.FunctionDeclStmt (.mk "int" "main" [] (some body))]

/-- `int main() { return 1; x = 2; }`: a return statement with a further
statement after it in `main`'s top-level queue. -/
def progReturnThenAssign : List Statement :=
  mainProgram
    [ .ReturnStatement (some (.IntegerLiteral 1)),
      assignStmt "x" "=" (.IntegerLiteral 2) ]

/-- `int main() { x = 1; for (i = 0; i < 1; i++) { x = 2; } return x; }`:
an assignment inside a for-loop body to a variable bound only in the
enclosing scope. -/
def progLoopShadow : List Statement :=
  mainProgram
    [ assignStmt "x" "=" (.IntegerLiteral 1),
      countingFor 1 [ assignStmt "x" "=" (.IntegerLiteral 2) ],
      .ReturnStatement (some (.Identifier "x")) ]

/-- `int main() { sum = 0; for (i = 0; i < 5; i++) { sum += i; } return sum; }`:
the spec's summing-loop example, reading `sum` after the loop. -/
def progSumLoop : List Statement :=
  mainProgram
    [ assignStmt "sum" "=" (.IntegerLiteral 0),
      countingFor 5 [ assignStmt "sum" "+=" (.Identifier "i") ],
      .ReturnStatement (some (.Identifier "sum")) ]

/-- The summing loop instrumented with an iteration counter mutated in place:
`int main() { sum = 0; n = 0; for (i = 0; i < 5; i++) { sum += i; n++; }
return n * 100 + sum; }` (the postfix `n++` mutates the outer cell through
the shared pointer, so it survives the loop, unlike the `sum` shadow). -/
def progSumLoopCounted : List Statement :=
  mainProgram
    [ assignStmt "sum" "=" (.IntegerLiteral 0),
      assignStmt "n" "=" (.IntegerLiteral 0),
      countingFor 5
        [ assignStmt "sum" "+=" (.Identifier "i"),
          .ExpressionStatement (.PostfixExpression (.Identifier "n") "++") ],
      .ReturnStatement (some (.InfixExpression
        (.InfixExpression (.Identifier "n") "*" (.IntegerLiteral 100))
        "+" (.Identifier "sum"))) ]

/-- `int main() { n = 0; x = 0; for (i = 0; i < 2; i++) { if (x) { n++; }
x = 1; } return n; }`: iteration 1 writes a shadow `x = 1` into the loop
scope; whether iteration 2 sees it distinguishes a shared loop scope from a
fresh scope per iteration. -/
def progIterShadow : List Statement :=
  mainProgram
    [ assignStmt "n" "=" (.IntegerLiteral 0),
      assignStmt "x" "=" (.IntegerLiteral 0),
      countingFor 2
        [ .IfStatement (.Identifier "x")
            [ .ExpressionStatement (.PostfixExpression (.Identifier "n") "++") ] none,
          assignStmt "x" "=" (.IntegerLiteral 1) ],
      .ReturnStatement (some (.Identifier "n")) ]

/-- `int main() { y = 0; { y = 1; } return y; }`: whether the inner block's
write lands in a block scope or in `main`'s scope. -/
def progBlockWrite : List Statement :=
  mainProgram
    [ assignStmt "y" "=" (.IntegerLiteral 0),
      .BlockStatement [ assignStmt "y" "=" (.IntegerLiteral 1) ],
      .ReturnStatement (some (.Identifier "y")) ]

/-- `int f() { return 7; } int main() { return f(); }`. -/
def progCall : List Statement :=
  [ .FunctionDeclStmt (.mk "int" "f" [] (some [ .ReturnStatement (some (.IntegerLiteral 7)) ])),
    .FunctionDeclStmt (.mk "int" "main" []
      (some [ .ReturnStatement (some (.CallExpression (.Identifier "f") [])) ])) ]

/-- `int main() { return 1; }` and `int main() { return 2; }`. -/
def progReturnOne : List Statement :=
  mainProgram [ .ReturnStatement (some (.IntegerLiteral 1)) ]

def progReturnTwo : List Statement :=
  mainProgram [ .ReturnStatement (some (.IntegerLiteral 2)) ]

/-- `int main() { x = 7; }`: the body runs off the end with no return. -/
def progNoReturn : List Statement :=
  mainProgram [ assignStmt "x" "=" (.IntegerLiteral 7) ]

/-- `int x = 5; int main() { return x; }`: a top-level variable declaration
before `main`. -/
def progTopLevelVar : List Statement :=
  [ .VarDecl "int" "x" (some (.IntegerLiteral 5)),
    .FunctionDeclStmt (.mk "int" "main" []
      (some [ .ReturnStatement (some (.Identifier "x")) ])) ]

/-- Whether a top-level statement is a function declaration. -/
def isFunctionDeclStmt : Statement → Bool
  | .FunctionDeclStmt _ => true
  | _ => false

/-- The first `Step` call on `progReturnThenAssign` in step mode. -/
def stepOnce : EvalOut StepResult × IState :=
  Step 200 (EnableSingleStep (NewInterpreter progReturnThenAssign))

/-- The second `Step` call, on the state the first one left behind. -/
def stepTwice : EvalOut StepResult × IState := Step 200 stepOnce.2

/-- An identifier token as the lexer produces it. -/
def identToken (s : String) : Token := ⟨.IDENT, s, 1⟩

/-- The token stream of `a ? b : c ? d : e`. -/
def ternaryChainTokens (a b c d e : String) : List Token :=
  [identToken a, ⟨.QUESTION, "?", 1⟩, identToken b, ⟨.COLON, ":", 1⟩, identToken c,
   ⟨.QUESTION, "?", 1⟩, identToken d, ⟨.COLON, ":", 1⟩, identToken e]

/-- The token stream of `a = b = c`. -/
def assignChainTokens (a b c : String) : List Token :=
  [identToken a, ⟨.ASSIGN, "=", 1⟩, identToken b, ⟨.ASSIGN, "=", 1⟩, identToken c]

/-- Observer for parse trees: whether the parsed expression is a ternary
whose CONDITION is itself a ternary — true exactly for the left-associated
reading `(a ? b : c) ? d : e` and false for the right-associated
`a ? b : (c ? d : e)`. -/
def ternaryConditionIsTernary : Option Expression → Bool
  | some (.ConditionalExpression (.ConditionalExpression _ _ _) _ _) => true
  | _ => false

/-- Observer for parse trees: whether the parsed expression is an assignment
whose TARGET is itself an assignment — true exactly for the left-associated
reading `(a = b) = c` and false for the right-associated `a = (b = c)`. -/
def assignTargetIsAssign : Option Expression → Bool
  | some (.AssignmentExpression (.AssignmentExpression _ _ _) _ _) => true
  | _ => false

/- Concrete data for instantiating the C5 theorem: the state, function and
intermediate states of the call `f()` in `progCall`. -/
namespace C5W

def s0w : IState := NewInterpreter progCall

def fnw : FunctionDecl := .mk "int" "f" [] (some [.ReturnStatement (some (.IntegerLiteral 7))])

def sAw : IState := { s0w with eenv := s0w.eenv ++ [⟨[], some s0w.globals⟩] }

def s2w : IState := (evalFunctionBody 50 fnw.body s0w.eenv.length sAw).2

end C5W

/- Concrete data for instantiating the C8 theorem: the states reached while
evaluating the operands of `1 || y` (with `y` undefined) and `1 && 2`. -/
namespace C8W

def sw : IState := NewInterpreter []

def s1w : IState := (evalExpression 10 (.IntegerLiteral 1) 0 sw).2

def s2w : IState := (evalExpression 10 (.IntegerLiteral 2) 0 s1w).2

end C8W

/-! ## Helper lemmas -/

theorem bind_apply {α β : Type} (m : M α) (k : α → M β) (s : IState) :
    (m >>= k) s = match m s with
      | (.ok a, s1) => k a s1
      | (.err e, s1) => (.err e, s1)
      | (.panic e, s1) => (.panic e, s1)
      | (.timeout, s1) => (.timeout, s1) := rfl

theorem getState_apply (s : IState) : getState s = (.ok s, s) := rfl

theorem catchErr_apply {α : Type} (m : M α) (s : IState) :
    catchErr m s = match m s with
      | (.ok a, s1) => (.ok (.ok a), s1)
      | (.err e, s1) => (.ok (.error e), s1)
      | (.panic e, s1) => (.panic e, s1)
      | (.timeout, s1) => (.timeout, s1) := rfl

theorem evalFns_succ (n : Nat) : evalFns (n + 1) = evalStep (evalFns n) := rfl

/-- The Go float-operand branch has no `&&` case and falls through to the
integer switch. -/
theorem floatInfixOp_and_falls_through (lv rv : Value) :
    floatInfixOp "&&" lv rv = intInfixOp "&&" lv rv := by
  simp [floatInfixOp]

/-- The Go float-operand branch has no `||` case and falls through to the
integer switch. -/
theorem floatInfixOp_or_falls_through (lv rv : Value) :
    floatInfixOp "||" lv rv = intInfixOp "||" lv rv := by
  simp [floatInfixOp]

theorem intInfixOp_and (lv rv : Value) :
    intInfixOp "&&" lv rv = allocValue (intValue (boolToInt (isTruthy lv && isTruthy rv))) := by
  simp [intInfixOp]

theorem intInfixOp_or (lv rv : Value) :
    intInfixOp "||" lv rv = allocValue (intValue (boolToInt (isTruthy lv || isTruthy rv))) := by
  simp [intInfixOp]

/-- `NewInterpreter`'s function-collection loop skips every statement that is
not a function declaration. -/
theorem collectFunctions_ignores_nonfunctions (stmts : List Statement) :
    ∀ acc : List (String × FunctionDecl),
      collectFunctions stmts acc = collectFunctions (stmts.filter isFunctionDeclStmt) acc := by
  induction stmts with
  | nil => intro acc; rfl
  | cons s rest ih =>
    intro acc
    cases s <;> simp [collectFunctions, List.filter, isFunctionDeclStmt, ih]

/-! ## The claims -/

/-- C1 (counterexample): after the first `Step` has executed `return 1`
(reporting `Returned` and `Done` true), the next `Step` call still executes
the queued `x = 2`: it reports that statement as executed and the current
environment gains the binding `x = 2`, which was absent before — so a
subsequent call after the return fired does evaluate a statement of the
queue and does change an environment binding, contrary to the claim. -/
theorem step_after_return_still_executes :
    stepOnce.1 = .ok { Statement := some (.ReturnStatement (some (.IntegerLiteral 1))),
                       Done := true, Returned := true, ReturnVal := some 0 }
  ∧ lookupVar stepOnce.2 "x" = none
  ∧ stepTwice.1 = .ok { Statement := some (assignStmt "x" "=" (.IntegerLiteral 2)),
                        Done := true, Returned := true, ReturnVal := some 0 }
  ∧ lookupVar stepTwice.2 "x" = some (intValue 2) :=
  ⟨rfl, rfl, rfl, rfl⟩

/-- C1 (amended): once the pending queue is exhausted (the step index has
reached the queue length after at least one execution), every later `Step`
in step mode reports completion (`Done` true) and leaves the interpreter
state completely unchanged; but after a `return` has fired with statements
still queued, later `Step` calls — while reporting `Done` true — continue to
execute the remaining statements (concrete part; the binding `x = 2` exists
after the second step of `progReturnThenAssign`, see also
`step_after_return_still_executes`). -/
theorem step_completion_semantics :
    (∀ (fuel : Nat) (s : IState), s.stepMode = true → 0 < s.stepIndex →
        s.stepStack.length ≤ s.stepIndex →
        Step fuel s = (.ok { Done := true }, s))
  ∧ lookupVar stepTwice.2 "x" = some (intValue 2) := by
  refine ⟨?_, rfl⟩
  intro fuel s hmode hpos hdone
  unfold Step
  rw [bind_apply, getState_apply]
  have h0 : s.stepIndex ≠ 0 := Nat.pos_iff_ne_zero.mp hpos
  simp [hmode, h0, hdone, bind_apply, getState_apply]
  rfl

/-- C1 (witness): the state after the second step of
`progReturnThenAssign` satisfies the hypotheses (step mode on, two of two
queued statements consumed), and a third `Step` reports `Done` and changes
nothing. -/
theorem step_completion_semantics_witness :
    (stepTwice.2.stepMode = true ∧ 0 < stepTwice.2.stepIndex ∧
      stepTwice.2.stepStack.length ≤ stepTwice.2.stepIndex)
  ∧ Step 200 stepTwice.2 = (.ok { Done := true }, stepTwice.2) :=
  ⟨⟨rfl, by decide, by decide⟩,
   step_completion_semantics.1 200 stepTwice.2 rfl (by decide) (by decide)⟩

/-- C2: division of 5 by 0 returns the runtime error value the spec demands,
but modulo of 5 by 0 reaches Go's `%` operator with a zero divisor — the `%`
case has no zero check — and panics (a crash, contrary to the claim and to
the function's own documentation); for nonzero divisors both operators return
the truncated 64-bit signed quotient/remainder (witnessed at 7/2 = 3,
-7/2 = -3, 7%2 = 1, -7%2 = -1). -/
theorem intdiv_error_intmod_panic :
    (evalExpression 10 (.InfixExpression (.IntegerLiteral 5) "/" (.IntegerLiteral 0)) 0
        (NewInterpreter [])).1 = .err "division by zero"
  ∧ (evalExpression 10 (.InfixExpression (.IntegerLiteral 5) "%" (.IntegerLiteral 0)) 0
        (NewInterpreter [])).1 = .panic "runtime error: integer divide by zero"
  ∧ ((evalExpression 10 (.InfixExpression (.IntegerLiteral 7) "/" (.IntegerLiteral 2)) 0
        (NewInterpreter [])).2.venv.get? 2 = some (intValue 3))
  ∧ ((evalExpression 10 (.InfixExpression (.IntegerLiteral (-7)) "/" (.IntegerLiteral 2)) 0
        (NewInterpreter [])).2.venv.get? 2 = some (intValue (-3)))
  ∧ ((evalExpression 10 (.InfixExpression (.IntegerLiteral 7) "%" (.IntegerLiteral 2)) 0
        (NewInterpreter [])).2.venv.get? 2 = some (intValue 1))
  ∧ ((evalExpression 10 (.InfixExpression (.IntegerLiteral (-7)) "%" (.IntegerLiteral 2)) 0
        (NewInterpreter [])).2.venv.get? 2 = some (intValue (-1))) :=
  ⟨rfl, rfl, rfl, rfl, rfl, rfl⟩

/-- C3 (counterexample): in
`int main() { x = 1; for (i = 0; i < 1; i++) { x = 2; } return x; }` the
assignment `x = 2` in the loop body does not mutate the enclosing binding:
`x` read after the loop is still 1, not the 2 the claim requires. -/
theorem outer_assignment_counterexample :
    mainEffectiveValue 200 progLoopShadow = some (intValue 1)
  ∧ decide (mainEffectiveValue 200 progLoopShadow = some (intValue 2)) = false :=
  ⟨rfl, rfl⟩

/-- C3 (amended): `Environment.Set` always writes the binding into the store
of the very environment it is called on — it never walks to an enclosing
scope — so an assignment inside a for-loop body to a variable bound only
outside the loop creates a loop-scope shadow and leaves the outer binding
unchanged, which still reads its old value after the loop (`progLoopShadow`
returns 1). -/
theorem assignment_targets_current_scope :
    (∀ (s : IState) (e v : Nat) (name : String) (d : EnvData),
        s.eenv.get? e = some d →
        envSet e name v s =
          (.ok (), { s with eenv := s.eenv.set e { d with store := assocSet d.store name v } }))
  ∧ mainEffectiveValue 200 progLoopShadow = some (intValue 1) := by
  refine ⟨?_, rfl⟩
  intro s e v name d h
  unfold envSet
  rw [h]

/-- C3 (witness): instantiating the `Environment.Set` characterisation on
the freshly constructed global environment. -/
theorem assignment_targets_current_scope_witness :
    ((NewInterpreter []).eenv.get? 0 = some ⟨[], none⟩)
  ∧ envSet 0 "z" 5 (NewInterpreter []) =
      (.ok (), { NewInterpreter [] with
                  eenv := (NewInterpreter []).eenv.set 0
                    { (⟨[], none⟩ : EnvData) with store := assocSet [] "z" 5 } }) :=
  ⟨rfl, assignment_targets_current_scope.1 (NewInterpreter []) 0 5 "z" ⟨[], none⟩ rfl⟩

/-- C4 (counterexample): `a ? b : c ? d : e` parses LEFT-associated, as
`(a ? b : c) ? d : e` — the condition of the resulting ternary is itself a
ternary, which is impossible for the right-associated tree the claim
requires; likewise `a = b = c` parses as `(a = b) = c`, with the assignment
target itself an assignment. -/
theorem ternary_assignment_parse_counterexample :
    (parseExpression 30 LOWEST ⟨ternaryChainTokens "a" "b" "c" "d" "e", []⟩).map Prod.fst =
      some (.ConditionalExpression
        (.ConditionalExpression (.Identifier "a") (.Identifier "b") (.Identifier "c"))
        (.Identifier "d") (.Identifier "e"))
  ∧ ternaryConditionIsTernary
      ((parseExpression 30 LOWEST ⟨ternaryChainTokens "a" "b" "c" "d" "e", []⟩).map Prod.fst) = true
  ∧ (parseExpression 30 LOWEST ⟨assignChainTokens "a" "b" "c", []⟩).map Prod.fst =
      some (.AssignmentExpression
        (.AssignmentExpression (.Identifier "a") "=" (.Identifier "b")) "=" (.Identifier "c"))
  ∧ assignTargetIsAssign
      ((parseExpression 30 LOWEST ⟨assignChainTokens "a" "b" "c", []⟩).map Prod.fst) = true :=
  ⟨rfl, rfl, rfl, rfl⟩

/-- C4 (amended): for all identifier operands, the ternary chain and the
assignment chain parse LEFT-associated: although
`parseConditionalExpression` and `parseAssignmentExpression` do parse their
right-hand side at the operator's own precedence level (which stops the
inner parse before a following `?`/`=`), the enclosing infix loop — whose
guard compares with a strict `<` — then consumes that operator at the outer
level, attaching it to the left. -/
theorem ternary_assignment_left_assoc (a b c d e : String) :
    (parseExpression 30 LOWEST ⟨ternaryChainTokens a b c d e, []⟩).map Prod.fst =
      some (.ConditionalExpression
        (.ConditionalExpression (.Identifier a) (.Identifier b) (.Identifier c))
        (.Identifier d) (.Identifier e))
  ∧ (parseExpression 30 LOWEST ⟨assignChainTokens a b c, []⟩).map Prod.fst =
      some (.AssignmentExpression
        (.AssignmentExpression (.Identifier a) "=" (.Identifier b)) "=" (.Identifier c)) :=
  ⟨rfl, rfl⟩

/-- C5: calling a user-defined function snapshots the caller's
"should return" flag and return value, clears them for the callee
(`evalFunctionBody` is insensitive to their incoming values — third
conjunct), and restores them to their pre-call values after the callee body
finishes, both when the body succeeds (first conjunct) and when it returns
an error (second conjunct) — so a callee's return never terminates the
caller's enclosing block. -/
theorem call_saves_clears_restores_flags
    (f : Nat) (name : String) (args : List Expression) (env : Nat)
    (s0 s1 s2 : IState) (fn : FunctionDecl) (r0 : EvalOut Nat)
    (hnb : builtinNames.contains name = false)
    (hfn : assocGet s0.functions name = some fn)
    (hargs : bindParameters f fn.parameters args env s0.eenv.length
               { s0 with eenv := s0.eenv ++ [⟨[], some s0.globals⟩] } = (.ok (), s1))
    (hbody : evalFunctionBody f fn.body s0.eenv.length s1 = (r0, s2)) :
    (∀ v, r0 = .ok v →
        evalCallExpression (f + 1) (.Identifier name) args env s0 =
          (.ok v, { s2 with shouldReturn := s0.shouldReturn, returnValue := s0.returnValue }))
  ∧ (∀ e, r0 = .err e →
        evalCallExpression (f + 1) (.Identifier name) args env s0 =
          (.err e, { s2 with shouldReturn := s0.shouldReturn, returnValue := s0.returnValue }))
  ∧ (∀ (b : Bool) (rv : Option Nat) (env2 : Nat) (s : IState),
        evalFunctionBody (f + 1) fn.body env2 s =
          evalFunctionBody (f + 1) fn.body env2 { s with shouldReturn := b, returnValue := rv }) := by
  have hargs2 : (evalFns f).bindParametersF fn.parameters args env s0.eenv.length
      { s0 with eenv := s0.eenv ++ [⟨[], some s0.globals⟩] } = (.ok (), s1) := hargs
  have hbody2 : (evalFns f).evalFunctionBodyF fn.body s0.eenv.length s1 = (r0, s2) := hbody
  refine ⟨?_, ?_, ?_⟩
  · intro v hv
    subst hv
    show (evalStep (evalFns f)).evalCallExpressionF (.Identifier name) args env s0 = _
    simp only [evalStep]
    simp only [hnb, Bool.false_eq_true, if_false, ite_false]
    rw [bind_apply, getState_apply]
    simp only [hfn]
    rw [bind_apply]
    rw [show (NewEnclosedEnvironment s0.globals) s0 =
        (.ok s0.eenv.length, { s0 with eenv := s0.eenv ++ [⟨[], some s0.globals⟩] }) from rfl]
    simp only [bind_apply, catchErr_apply, hargs2, hbody2]
    rfl
  · intro e he
    subst he
    show (evalStep (evalFns f)).evalCallExpressionF (.Identifier name) args env s0 = _
    simp only [evalStep]
    simp only [hnb, Bool.false_eq_true, if_false, ite_false]
    rw [bind_apply, getState_apply]
    simp only [hfn]
    rw [bind_apply]
    rw [show (NewEnclosedEnvironment s0.globals) s0 =
        (.ok s0.eenv.length, { s0 with eenv := s0.eenv ++ [⟨[], some s0.globals⟩] }) from rfl]
    simp only [bind_apply, catchErr_apply, hargs2, hbody2]
    rfl
  · intro b rv env2 s
    rfl

/-- C5 (witness): the call `f()` of `progCall`, instantiated concretely: the
hypotheses hold by computation and the call's result restores the caller's
(cleared) flags. -/
theorem call_saves_clears_restores_flags_witness :
    (builtinNames.contains "f" = false)
  ∧ (assocGet C5W.s0w.functions "f" = some C5W.fnw)
  ∧ (evalCallExpression 51 (.Identifier "f") [] 0 C5W.s0w).1 = .ok 0
  ∧ (evalCallExpression 51 (.Identifier "f") [] 0 C5W.s0w).2.shouldReturn
      = C5W.s0w.shouldReturn := by
  have h := (call_saves_clears_restores_flags 50 "f" [] 0 C5W.s0w C5W.sAw C5W.s2w
      C5W.fnw (.ok 0) (by decide) rfl rfl rfl).1 0 rfl
  exact ⟨by decide, rfl, by rw [h], by rw [h]⟩

/-- C6 (counterexample): `Run` does not return `main`'s effective return
value: on `int main(){return 1;}` and `int main(){return 2;}` it produces
the identical outcome `ok ()` (its Go signature carries only an `error`),
although the effective return values — which `evalFunctionBody` computes and
`Run` discards — are 1 and 2. -/
theorem run_discards_return_value :
    runOutcome 200 progReturnOne = .ok ()
  ∧ runOutcome 200 progReturnTwo = .ok ()
  ∧ runOutcome 200 progReturnOne = runOutcome 200 progReturnTwo
  ∧ mainEffectiveValue 200 progReturnOne = some (intValue 1)
  ∧ mainEffectiveValue 200 progReturnTwo = some (intValue 2)
  ∧ decide (mainEffectiveValue 200 progReturnOne = mainEffectiveValue 200 progReturnTwo) = false :=
  ⟨rfl, rfl, rfl, rfl, rfl, rfl⟩

/-- C6 (amended): without a `main` function, `Run` fails with the
"no main function found" error, leaving the state untouched; with one, it
executes `main`'s body to completion and returns a nil error, discarding the
effective return value, which `evalFunctionBody` computes as the explicit
return value (`progReturnOne`: 1) or as the default integer zero when the
body runs off the end (`progNoReturn`). -/
theorem run_semantics :
    (∀ (fuel : Nat) (s : IState), assocGet s.functions "main" = none →
        Run fuel s = (.err "no main function found", s))
  ∧ (runOutcome 200 progReturnOne = .ok ()
      ∧ mainEffectiveValue 200 progReturnOne = some (intValue 1))
  ∧ (runOutcome 200 progNoReturn = .ok ()
      ∧ mainEffectiveValue 200 progNoReturn = some (intValue 0)) := by
  refine ⟨?_, ⟨rfl, rfl⟩, ⟨rfl, rfl⟩⟩
  intro fuel s h
  unfold Run
  rw [bind_apply, getState_apply]
  simp only [h]
  rfl

/-- C6 (witness): on the empty program there is no `main`, and `Run` fails
with the "no main function found" error. -/
theorem run_semantics_witness :
    (assocGet (NewInterpreter []).functions "main" = none)
  ∧ Run 1 (NewInterpreter []) = (.err "no main function found", NewInterpreter []) :=
  ⟨rfl, run_semantics.1 1 (NewInterpreter []) rfl⟩

/-- C7 (counterexample): the summing loop
`int main() { sum = 0; for (i = 0; i < 5; i++) { sum += i; } return sum; }`
terminates, but `sum` read after the loop in the enclosing scope is 0, not
the 10 the claim requires: each `sum += i` wrote a shadow binding into the
loop scope, discarded with it. -/
theorem sum_loop_counterexample :
    mainEffectiveValue 200 progSumLoop = some (intValue 0)
  ∧ decide (mainEffectiveValue 200 progSumLoop = some (intValue 10)) = false :=
  ⟨rfl, rfl⟩

/-- C7 (amended): the loop terminates after exactly 5 body executions (the
in-place `n++` counter survives the loop and reports 5; packed into
`n * 100 + sum` the program returns 500, so `n = 5` and the enclosing
`sum = 0`), but `sum` read after the loop is 0, not 10. -/
theorem sum_loop_semantics :
    mainEffectiveValue 200 progSumLoop = some (intValue 0)
  ∧ mainEffectiveValue 200 progSumLoopCounted = some (intValue 500) :=
  ⟨rfl, rfl⟩

/-- C8: evaluating `a && b` or `a || b` always evaluates both operands, left
first, before combining their truth values into an integer 1/0 result: a
right operand that returns an error makes the whole expression fail with
that error even when the left operand already decides the result (first
conjunct, for both operators); when both operands evaluate, the result is
the conjunction/disjunction of their truthiness, whatever the operand types
(second conjunct — float operands fall through to the same integer case). -/
theorem logical_operators_no_short_circuit
    (f : Nat) (a b : Expression) (env : Nat) (s s1 s2 : IState) (la : Nat) :
    (∀ m : String, evalExpression f a env s = (.ok la, s1) →
        evalExpression f b env s1 = (.err m, s2) →
        evalExpression (f + 2) (.InfixExpression a "&&" b) env s = (.err m, s2)
      ∧ evalExpression (f + 2) (.InfixExpression a "||" b) env s = (.err m, s2))
  ∧ (∀ (ra : Nat) (lv rv : Value), evalExpression f a env s = (.ok la, s1) →
        evalExpression f b env s1 = (.ok ra, s2) →
        s2.venv.get? la = some lv → s2.venv.get? ra = some rv →
        evalExpression (f + 2) (.InfixExpression a "&&" b) env s =
          (.ok s2.venv.length,
           { s2 with venv := s2.venv ++ [intValue (boolToInt (isTruthy lv && isTruthy rv))] })
      ∧ evalExpression (f + 2) (.InfixExpression a "||" b) env s =
          (.ok s2.venv.length,
           { s2 with venv := s2.venv ++ [intValue (boolToInt (isTruthy lv || isTruthy rv))] })) := by
  constructor
  · intro m h1 h2
    have h1' : (evalFns f).evalExpressionF a env s = (.ok la, s1) := h1
    have h2' : (evalFns f).evalExpressionF b env s1 = (.err m, s2) := h2
    constructor
    · show (evalStep (evalFns (f + 1))).evalExpressionF (.InfixExpression a "&&" b) env s = _
      simp only [evalStep, evalFns_succ]
      simp only [bind_apply, h1', h2']
    · show (evalStep (evalFns (f + 1))).evalExpressionF (.InfixExpression a "||" b) env s = _
      simp only [evalStep, evalFns_succ]
      simp only [bind_apply, h1', h2']
  · intro ra lv rv h1 h2 hl hr
    have h1' : (evalFns f).evalExpressionF a env s = (.ok la, s1) := h1
    have h2' : (evalFns f).evalExpressionF b env s1 = (.ok ra, s2) := h2
    constructor
    · show (evalStep (evalFns (f + 1))).evalExpressionF (.InfixExpression a "&&" b) env s = _
      simp only [evalStep, evalFns_succ]
      simp only [bind_apply, h1', h2', readValue, hl, hr]
      split
      · rw [floatInfixOp_and_falls_through, intInfixOp_and]
        rfl
      · rw [intInfixOp_and]
        rfl
    · show (evalStep (evalFns (f + 1))).evalExpressionF (.InfixExpression a "||" b) env s = _
      simp only [evalStep, evalFns_succ]
      simp only [bind_apply, h1', h2', readValue, hl, hr]
      split
      · rw [floatInfixOp_or_falls_through, intInfixOp_or]
        rfl
      · rw [intInfixOp_or]
        rfl

/-- C8 (witness): `1 || y` with `y` undefined fails with the undefined
variable error although the truthy left operand already decides the result;
`1 && 2` evaluates both operands and yields 1. -/
theorem logical_operators_no_short_circuit_witness :
    (evalExpression 10 (.IntegerLiteral 1) 0 C8W.sw = (.ok 0, C8W.s1w)
      ∧ evalExpression 10 (.Identifier "y") 0 C8W.s1w =
          (.err "undefined variable: y", C8W.s1w))
  ∧ (evalExpression 12 (.InfixExpression (.IntegerLiteral 1) "||" (.Identifier "y")) 0 C8W.sw).1
      = .err "undefined variable: y"
  ∧ (evalExpression 12 (.InfixExpression (.IntegerLiteral 1) "&&" (.IntegerLiteral 2)) 0 C8W.sw).1
      = .ok 2
  ∧ (evalExpression 12 (.InfixExpression (.IntegerLiteral 1) "&&" (.IntegerLiteral 2)) 0
        C8W.sw).2.venv.get? 2 = some (intValue 1) := by
  have hOr := (logical_operators_no_short_circuit 10 (.IntegerLiteral 1) (.Identifier "y")
      0 C8W.sw C8W.s1w C8W.s1w 0).1 "undefined variable: y" rfl rfl
  have hAnd := (logical_operators_no_short_circuit 10 (.IntegerLiteral 1) (.IntegerLiteral 2)
      0 C8W.sw C8W.s1w C8W.s2w 0).2 1 (intValue 1) (intValue 2) rfl rfl rfl rfl
  refine ⟨⟨rfl, rfl⟩, by rw [hOr.2], ?_, ?_⟩
  · rw [hAnd.1]
    rfl
  · rw [hAnd.1]
    rfl

/-- C9 (counterexample): in the two-iteration loop of `progIterShadow` both
iterations run (the program returns 1, which requires the second iteration's
`if (x)` to see the `x = 1` shadow written by the FIRST iteration — with a
fresh scope per iteration it would read the outer `x = 0` and return 0), yet
the whole execution allocates only three environments in total: the globals,
`main`'s invocation scope, and a single scope for the entire for loop.  So
two successive iterations of the same for loop share one scope, and neither
the iterations nor any of the executed block statements received a scope of
their own.  Likewise the plain inner block of `progBlockWrite` creates no
scope: only two environments ever exist and the block's write lands directly
in `main`'s scope (the program returns 1). -/
theorem scope_creation_counterexample :
    (runFinalState 200 progIterShadow).eenv.length = 3
  ∧ mainEffectiveValue 200 progIterShadow = some (intValue 1)
  ∧ (runFinalState 200 progBlockWrite).eenv.length = 2
  ∧ mainEffectiveValue 200 progBlockWrite = some (intValue 1) :=
  ⟨rfl, rfl, rfl, rfl⟩

/-- C9 (amended): a function invocation creates exactly one child scope
(running `int f(){return 7;} int main(){return f();}` allocates three
environments: globals, `main`'s, `f`'s); a for statement creates exactly one
child scope for the WHOLE loop, shared by all its iterations (the
two-iteration `progIterShadow` run allocates three — globals, `main`'s, one
loop scope — and the iteration-1 shadow is seen by iteration 2, returning
1); and a plain block statement creates no scope at all (`progBlockWrite`:
two environments, and the inner block's write is visible after the block,
returning 1). -/
theorem scope_creation_semantics :
    ((runFinalState 200 progCall).eenv.length = 3
      ∧ mainEffectiveValue 200 progCall = some (intValue 7))
  ∧ ((runFinalState 200 progIterShadow).eenv.length = 3
      ∧ mainEffectiveValue 200 progIterShadow = some (intValue 1))
  ∧ ((runFinalState 200 progBlockWrite).eenv.length = 2
      ∧ mainEffectiveValue 200 progBlockWrite = some (intValue 1)) :=
  ⟨⟨rfl, rfl⟩, ⟨rfl, rfl⟩, ⟨rfl, rfl⟩⟩

/-- C10: top-level variable declarations are never executed: the
interpreter construction depends only on the function declarations of the
program (first conjunct), the global environment starts empty whatever the
program declares (second conjunct), and a reference from `main` to a
top-level-declared variable fails with an "undefined variable" runtime
error (third conjunct, on `int x = 5; int main() { return x; }`). -/
theorem top_level_var_decls_ignored :
    (∀ program : List Statement,
        NewInterpreter program = NewInterpreter (program.filter isFunctionDeclStmt))
  ∧ (∀ program : List Statement,
        (NewInterpreter program).eenv = [⟨[], none⟩])
  ∧ runOutcome 200 progTopLevelVar = .err "undefined variable: x" := by
  refine ⟨?_, fun _ => rfl, rfl⟩
  intro program
  unfold NewInterpreter
  rw [collectFunctions_ignores_nonfunctions]

end Cint
